import Mathlib

/-!
Verification development for the spreadsheet-to-record extraction engine of
src/streamlit_app.py: cell model, person-discovery pass, per-portal section
scan with a current-person cursor, numeric coercion, chronological ordering
of the aggregated table, and the summary queries consumed by the dashboard.
Numeric cells are modelled as integers; a missing cell models a pandas NaN.
-/

namespace StreamlitApp

/-- A cell of the two projected columns of one portal section: missing (NaN),
a string, or a number (numbers are modelled as integers). -/
inductive Cell where
  | missing : Cell
  | str : String → Cell
  | num : Int → Cell
deriving DecidableEq

/-- Lowercase a string, modelling Python str.lower on ASCII data. -/
def lowerStr (s : String) : String := ⟨s.data.map Char.toLower⟩

/-- Whether the second list begins with the first. -/
def isPre : List Char → List Char → Bool
  | [], _ => true
  | _ :: _, [] => false
  | a :: as, b :: bs => a == b && isPre as bs

/-- Whether the string s begins with pat, modelling str.startswith. -/
def startsWithStr (s pat : String) : Bool := isPre pat.data s.data

/-- Whether pat occurs inside the list at some offset. -/
def isSub (pat : List Char) : List Char → Bool
  | [] => isPre pat []
  | a :: t => isPre pat (a :: t) || isSub pat t

/-- Whether pat occurs inside s, modelling Python's substring test. -/
def containsSub (s pat : String) : Bool := isSub pat.data s.data

/-- Remove leading and trailing whitespace from a character list. -/
def trimChars (l : List Char) : List Char :=
  ((l.dropWhile Char.isWhitespace).reverse.dropWhile Char.isWhitespace).reverse

/-- Modelling Python str.strip. -/
def trimStr (s : String) : String := ⟨trimChars s.data⟩

/-- Python str() applied to a cell: a missing value prints as "nan". -/
def cellStr : Cell → String
  | Cell.missing => "nan"
  | Cell.str s => s
  | Cell.num q => toString q

/-- value.replace(" ", "").isdigit() from the discovery filter (line 84);
Python isdigit is false on the empty string. -/
def digitsNoSpaces (v : String) : Bool :=
  !(v.data.filter (fun c => !(c == ' '))).isEmpty
  && (v.data.filter (fun c => !(c == ' '))).all Char.isDigit

/-- The closed task vocabulary (streamlit_app.py lines 52-56). -/
def known_tasks : List String :=
  ["Preparation and Setup", "Monitor WebInspect", "Quality", "Quality 1", "Quality 2",
   "Authentication and Session", "Access Control", "Input Validation", "Business Logic",
   "Work", "Review", "Remediation 2", "Remediation 1", "Remediation"]

/-- The fixed portal sections with their label/value column indices
(lines 58-63). -/
def portals : List (String × Nat × Nat) :=
  [("AMS PORTAL", 0, 1), ("EMEA PORTAL", 3, 4), ("APAC PORTAL", 6, 7), ("SGP PORTAL", 9, 10)]

/-- One uploaded source: its display label (file name minus extension, line 95)
and, for each portal section, the two projected columns as label/value rows. -/
structure Source where
  month_year : String
  sections : List (String × List (Cell × Cell))
deriving DecidableEq

/-- df[[col_task, col_value]].dropna(how="all") (lines 73 and 103): drop rows
whose two cells are both missing. -/
def dropna_all (rows : List (Cell × Cell)) : List (Cell × Cell) :=
  rows.filter (fun r => !(r.1 == Cell.missing && r.2 == Cell.missing))

/-- cell_value = str(row.iloc[0]).strip() (lines 75 and 107). -/
def rowLabel (r : Cell × Cell) : String := trimStr (cellStr r.1)

/-- The person filter of the discovery pass (lines 77-85), with the code's
condition order. -/
def isPersonLike (kt : List String) (v : String) : Bool :=
  decide (v ≠ "") && decide (v ∉ kt) && decide (lowerStr v ≠ "row labels")
  && !(containsSub (lowerStr v) "portal") && !(startsWithStr (lowerStr v) "total")
  && !(containsSub (lowerStr v) "grand total") && !(digitsNoSpaces v)

/-- Person labels detected in one projected section (Step 1 inner loop,
lines 74-86): take each trimmed label and keep it when the filter accepts. -/
def detected_rows (rows : List (Cell × Cell)) : List String :=
  ((dropna_all rows).map rowLabel).filter (fun v => isPersonLike known_tasks v)

/-- all_persons_detected accumulated over every section of every source
(lines 69-88); the Python set is modelled by taking dedup below. -/
def all_persons_detected (srcs : List Source) : List String :=
  (srcs.map (fun s => (s.sections.map (fun sec => detected_rows sec.2)).flatten)).flatten

/-- Code-point lexicographic order on character lists, modelling Python string
order as used by sorted(). -/
def listCharLe : List Char → List Char → Bool
  | [], _ => true
  | _ :: _, [] => false
  | a :: as, b :: bs =>
    if a.toNat < b.toNat then true
    else if b.toNat < a.toNat then false
    else listCharLe as bs

/-- Propositional form of the string order, for insertionSort. -/
def strLeRel (a b : String) : Prop := listCharLe a.data b.data = true

instance : DecidableRel strLeRel := fun a b => inferInstanceAs (Decidable (listCharLe a.data b.data = true))

/-- all_persons_list = sorted(list(all_persons_detected)) (line 90). -/
def all_persons_list (srcs : List Source) : List String :=
  List.insertionSort strLeRel (all_persons_detected srcs).dedup

/-- One raw extracted record [month_year, portal, person, task, value]
(line 116), before numeric coercion. -/
structure Record where
  month_year : String
  portal : String
  person : String
  task : String
  value : Cell
deriving DecidableEq

/-- The stateful per-portal scan of Step 2 (lines 104-116): current_person
starts as None; blank, "total" and "grand total" labels are skipped; a label
in the person list moves the cursor without emitting; a known-task label with
a live cursor and a present (notna) value cell emits one record. -/
def scanRows (kt ps : List String) (my pt : String) :
    Option String → List (Cell × Cell) → List Record
  | _, [] => []
  | cur, r :: rest =>
    if rowLabel r = "" ∨ lowerStr (rowLabel r) = "total" ∨ lowerStr (rowLabel r) = "grand total" then
      scanRows kt ps my pt cur rest
    else if rowLabel r ∈ ps then
      scanRows kt ps my pt (some (rowLabel r)) rest
    else if rowLabel r ∈ kt then
      match cur with
      | some p =>
        if r.2 ≠ Cell.missing then
          ⟨my, pt, p, rowLabel r, r.2⟩ :: scanRows kt ps my pt cur rest
        else
          scanRows kt ps my pt cur rest
      | none => scanRows kt ps my pt cur rest
    else
      scanRows kt ps my pt cur rest

/-- One portal's records: the scan applied after the dropna projection, with
the cursor reset to None (lines 103-104). -/
def portal_records (kt ps : List String) (my pt : String) (rows : List (Cell × Cell)) : List Record :=
  scanRows kt ps my pt none (dropna_all rows)

/-- all_records for one source (lines 101-116). -/
def source_records (kt ps : List String) (s : Source) : List Record :=
  (s.sections.map (fun sec => portal_records kt ps s.month_year sec.1 sec.2)).flatten

/-- Every record of the run, extracted against the frozen person list. -/
def extract_all (srcs : List Source) : List Record :=
  (srcs.map (fun s => source_records known_tasks (all_persons_list srcs) s)).flatten

/-- Digits-to-number fold for year literals and numeric strings. -/
def natFromDigits (l : List Char) : Nat := l.foldl (fun n c => n * 10 + (c.toNat - 48)) 0

/-- Integer fragment of pd.to_numeric applied to a string. -/
def parseIntStr (s : String) : Option Int :=
  if s.data = [] then none
  else if startsWithStr s "-" then
    (if (s.data.drop 1) ≠ [] ∧ (s.data.drop 1).all Char.isDigit
     then some (-(natFromDigits (s.data.drop 1) : Int)) else none)
  else if s.data.all Char.isDigit then some ((natFromDigits s.data : Int)) else none

/-- pd.to_numeric(x, errors="coerce"): missing or non-coercible gives none
(a NaN). -/
def to_numeric_coerce : Cell → Option Int
  | Cell.missing => none
  | Cell.num q => some q
  | Cell.str s => parseIntStr s

/-- to_numeric followed by .fillna(0) (line 122). -/
def fill0 (c : Cell) : Int := (to_numeric_coerce c).getD 0

/-- A row of the final normalized table, after numeric coercion. -/
structure FinalRecord where
  month_year : String
  portal : String
  person : String
  task : String
  completion : Int
deriving DecidableEq

/-- Numeric coercion of one record (line 122). -/
def to_final (r : Record) : FinalRecord := ⟨r.month_year, r.portal, r.person, r.task, fill0 r.value⟩

/-- combined_df = pd.concat(all_data) with the per-file coercion applied
(lines 120-132); the per-file non-empty guard does not change the content. -/
def combined_df (srcs : List Source) : List FinalRecord := (extract_all srcs).map to_final

/-- Long month names recognised by strptime's %B directive. -/
def month_names : List String :=
  ["January", "February", "March", "April", "May", "June", "July", "August",
   "September", "October", "November", "December"]

/-- Match of the label against one month name followed by whitespace and a
4-digit year, case-insensitive on the month as strptime is. -/
def matchMonthYear (m name : String) : Option Nat :=
  if startsWithStr (lowerStr m) (lowerStr name) then
    (if (m.data.drop name.data.length).length ≠ ((m.data.drop name.data.length).dropWhile Char.isWhitespace).length
        ∧ ((m.data.drop name.data.length).dropWhile Char.isWhitespace).length = 4
        ∧ ((m.data.drop name.data.length).dropWhile Char.isWhitespace).all Char.isDigit
     then some (natFromDigits ((m.data.drop name.data.length).dropWhile Char.isWhitespace))
     else none)
  else none

/-- parse_month_year (lines 134-138), datetime.strptime(m, "%B %Y"): a
chronological key (year-major), or none when the label does not parse. -/
def parse_month_year (m : String) : Option Nat :=
  month_names.enum.findSome? (fun p => (matchMonthYear m p.2).map (fun y => y * 12 + p.1))

/-- The Month_Order sort key; an unparseable label gets the top element, which
sort_values places last (pandas default na_position="last"). -/
def month_order_key (r : FinalRecord) : WithTop Nat :=
  match parse_month_year r.month_year with
  | some k => (k : WithTop Nat)
  | none => ⊤

/-- Comparison by Month_Order used by sort_values (line 141). -/
def month_order_le (a b : FinalRecord) : Prop := month_order_key a ≤ month_order_key b

instance : DecidableRel month_order_le := fun a b => inferInstanceAs (Decidable (month_order_key a ≤ month_order_key b))

instance : IsTotal FinalRecord month_order_le := ⟨fun a b => le_total (month_order_key a) (month_order_key b)⟩

instance : IsTrans FinalRecord month_order_le := ⟨fun _ _ _ h1 h2 => le_trans h1 h2⟩

/-- combined_df.sort_values("Month_Order") (line 141). -/
def combined_sorted (srcs : List Source) : List FinalRecord :=
  List.insertionSort month_order_le (combined_df srcs)

/-- groupby("Person")["Completion"].sum() read at one person key. -/
def total_for (tbl : List FinalRecord) (p : String) : Int :=
  ((tbl.filter (fun r => r.person == p)).map (fun r => r.completion)).sum

/-- The distinct persons of a table. -/
def persons_of (tbl : List FinalRecord) : List String := (tbl.map (fun r => r.person)).dedup

/-- groupby("Person")["Completion"].sum(): pandas groupby sorts its keys. -/
def person_totals (tbl : List FinalRecord) : List (String × Int) :=
  (List.insertionSort strLeRel (persons_of tbl)).map (fun p => (p, total_for tbl p))

/-- Series.idxmax: first key attaining the maximal value. -/
def idxmax_aux : String × Int → List (String × Int) → String × Int
  | best, [] => best
  | best, x :: xs => idxmax_aux (if best.2 < x.2 then x else best) xs

/-- top_performer (lines 155-158 and 245-248): the sentinel "N/A" on an empty
table, else the idxmax person of the per-person sums; the inner empty branch
is unreachable because a non-empty table has at least one person key. -/
def top_performer (tbl : List FinalRecord) : String :=
  if tbl.isEmpty then "N/A"
  else
    match person_totals tbl with
    | [] => "N/A"
    | x :: xs => (idxmax_aux x xs).1

/-- The three-way classification of the spec's Cell Classifier (spec 4.1),
rules applied in order, first match wins; stated from the spec's words to be
compared with the code's isPersonLike discovery filter. -/
inductive CellClass where
  | personCandidate : CellClass
  | knownTask : CellClass
  | structuralNoise : CellClass
deriving DecidableEq

/-- Modelled from the spec: the ordered classification rules of section 4.1
of the spec (blank, "row labels", contains "portal", starts with "total",
contains "grand total", all digits, known task, otherwise person). -/
def classifySpec (kt : List String) (v : String) : CellClass :=
  if v = "" then CellClass.structuralNoise
  else if lowerStr v = "row labels" then CellClass.structuralNoise
  else if containsSub (lowerStr v) "portal" then CellClass.structuralNoise
  else if startsWithStr (lowerStr v) "total" then CellClass.structuralNoise
  else if containsSub (lowerStr v) "grand total" then CellClass.structuralNoise
  else if digitsNoSpaces v then CellClass.structuralNoise
  else if v ∈ kt then CellClass.knownTask
  else CellClass.personCandidate

/-- A trimmed label value occurring on some surviving row of some section of
the run's sources: the cells the discovery pass actually inspects. -/
def occursLabel (v : String) (srcs : List Source) : Prop :=
  ∃ s ∈ srcs, ∃ sec ∈ s.sections, ∃ r ∈ dropna_all sec.2, rowLabel r = v

/-- The final-table rows contributed by one source of the run; the person
list is frozen over the whole run's sources. -/
def source_final (srcs : List Source) (s : Source) : List FinalRecord :=
  (source_records known_tasks (all_persons_list srcs) s).map to_final

/-- Concrete run input: a single section whose task row carries a negative
numeric completion cell. -/
def c3src : List Source :=
  [⟨"March 2024", [("AMS PORTAL",
    [(Cell.str "Alice", Cell.missing), (Cell.str "Quality", Cell.num (-5))])]⟩]

/-- Concrete run input whose value cells all coerce to nonnegative numbers. -/
def c3wsrc : List Source :=
  [⟨"April 2024", [("AMS PORTAL",
    [(Cell.str "Bob", Cell.missing), (Cell.str "Work", Cell.num 2)])]⟩]

/-- Concrete run input: a task row whose value cell is a present but
non-numeric string. -/
def c4src : List Source :=
  [⟨"March 2024", [("AMS PORTAL",
    [(Cell.str "Alice", Cell.missing), (Cell.str "Quality", Cell.str "abc")])]⟩]

/-- Concrete run input with one ordinary person/task section. -/
def c1src : List Source :=
  [⟨"March 2024", [("AMS PORTAL", [(Cell.str "Alice", Cell.missing)])]⟩]

/-- Concrete run input used to exhibit a discovered person. -/
def c2src : List Source :=
  [⟨"March 2024", [("AMS PORTAL", [(Cell.str "Alice", Cell.num 3)])]⟩]

/-- Concrete run input with one emitted record. -/
def c5src : List Source :=
  [⟨"March 2024", [("AMS PORTAL",
    [(Cell.str "Alice", Cell.missing), (Cell.str "Quality", Cell.num 5)])]⟩]

/-- Concrete run input with one emitted record in another portal. -/
def c6src : List Source :=
  [⟨"May 2024", [("EMEA PORTAL",
    [(Cell.str "Carol", Cell.missing), (Cell.str "Review", Cell.num 7)])]⟩]

/-- Concrete one-row final table. -/
def c7tbl : List FinalRecord := [⟨"March 2024", "AMS PORTAL", "Alice", "Quality", 5⟩]

/-- Concrete run input whose display label does not parse as Month Year. -/
def c8src : List Source :=
  [⟨"InvalidName", [("AMS PORTAL",
    [(Cell.str "Alice", Cell.missing), (Cell.str "Quality", Cell.num 1),
     (Cell.str "Work", Cell.num 2)])]⟩]

def c8recA : FinalRecord := ⟨"InvalidName", "AMS PORTAL", "Alice", "Quality", 1⟩

def c8recB : FinalRecord := ⟨"InvalidName", "AMS PORTAL", "Alice", "Work", 2⟩

/-- Two concrete sources forming a run, partitioned into singleton groups. -/
def c9a : Source :=
  ⟨"March 2024", [("AMS PORTAL",
    [(Cell.str "Alice", Cell.missing), (Cell.str "Quality", Cell.num 5)])]⟩

def c9b : Source :=
  ⟨"April 2024", [("AMS PORTAL",
    [(Cell.str "Alice", Cell.missing), (Cell.str "Work", Cell.num 3)])]⟩

def c9srcs : List Source := [c9a, c9b]

def c9groups : List (List Source) := [[c9a], [c9b]]

/-- Concrete run input whose first row has a missing label but a present
value cell. -/
def c10src : List Source :=
  [⟨"March 2024", [("AMS PORTAL",
    [(Cell.missing, Cell.num 1), (Cell.str "Quality", Cell.num 4)])]⟩]

lemma isPre_refl : ∀ l : List Char, isPre l l = true := by
  intro l
  induction l with
  | nil => rfl
  | cons a t ih => simp [isPre, ih]

lemma isSub_self : ∀ l : List Char, isSub l l = true := by
  intro l
  cases l with
  | nil => rfl
  | cons a t => simp [isSub, isPre_refl]

lemma startsWithStr_self (s : String) : startsWithStr s s = true := isPre_refl s.data

lemma containsSub_self (s : String) : containsSub s s = true := isSub_self s.data

/-- The discovery filter accepts only labels that are non-blank, outside the
task vocabulary, and distinct from the scan's terminator strings. -/
lemma isPersonLike_facts {kt : List String} {v : String} (h : isPersonLike kt v = true) :
    v ≠ "" ∧ v ∉ kt ∧ lowerStr v ≠ "total" ∧ lowerStr v ≠ "grand total" := by
  simp only [isPersonLike, Bool.and_eq_true, decide_eq_true_eq, Bool.not_eq_true'] at h
  obtain ⟨⟨⟨⟨⟨⟨h1, h2⟩, h3⟩, h4⟩, h5⟩, h6⟩, h7⟩ := h
  refine ⟨h1, h2, ?_, ?_⟩
  · intro hc
    rw [hc] at h5
    rw [startsWithStr_self] at h5
    exact Bool.true_eq_false.mp h5
  · intro hc
    rw [hc] at h6
    rw [containsSub_self] at h6
    exact Bool.true_eq_false.mp h6

/-- The spec's ordered classifier calls a value a person candidate exactly
when the code's discovery filter accepts it. -/
lemma classifySpec_person_iff (kt : List String) (v : String) :
    classifySpec kt v = CellClass.personCandidate ↔ isPersonLike kt v = true := by
  unfold classifySpec isPersonLike
  split_ifs with h1 h2 h3 h4 h5 h6 h7 <;> simp_all

lemma mem_detected_rows (rows : List (Cell × Cell)) (v : String) :
    v ∈ detected_rows rows ↔
      isPersonLike known_tasks v = true ∧ ∃ r ∈ dropna_all rows, rowLabel r = v := by
  simp only [detected_rows, List.mem_filter, List.mem_map]
  constructor
  · rintro ⟨⟨r, hr, rfl⟩, hp⟩
    exact ⟨hp, r, hr, rfl⟩
  · rintro ⟨hp, r, hr, rfl⟩
    exact ⟨⟨r, hr, rfl⟩, hp⟩

lemma mem_all_persons_detected (srcs : List Source) (v : String) :
    v ∈ all_persons_detected srcs ↔ isPersonLike known_tasks v = true ∧ occursLabel v srcs := by
  rw [all_persons_detected, List.mem_flatten]
  constructor
  · rintro ⟨L, hL, hv⟩
    rw [List.mem_map] at hL
    obtain ⟨s, hs, rfl⟩ := hL
    rw [List.mem_flatten] at hv
    obtain ⟨M, hM, hv⟩ := hv
    rw [List.mem_map] at hM
    obtain ⟨sec, hsec, rfl⟩ := hM
    rw [mem_detected_rows] at hv
    exact ⟨hv.1, s, hs, sec, hsec, hv.2⟩
  · rintro ⟨hp, s, hs, sec, hsec, r, hr, rfl⟩
    refine ⟨_, List.mem_map_of_mem _ hs, ?_⟩
    rw [List.mem_flatten]
    refine ⟨_, List.mem_map_of_mem _ hsec, ?_⟩
    rw [mem_detected_rows]
    exact ⟨hp, r, hr, rfl⟩

/-- Membership in the frozen person list: exactly the accepted labels that
occur on some surviving row of the run. -/
lemma mem_all_persons_list (srcs : List Source) (v : String) :
    v ∈ all_persons_list srcs ↔ isPersonLike known_tasks v = true ∧ occursLabel v srcs := by
  rw [all_persons_list, (List.perm_insertionSort strLeRel _).mem_iff, List.mem_dedup]
  exact mem_all_persons_detected srcs v

/-- One unfolding step of the scan, valid for an arbitrary cursor. -/
lemma scanRows_cons (kt ps : List String) (my pt : String) (cur : Option String)
    (r : Cell × Cell) (rest : List (Cell × Cell)) :
    scanRows kt ps my pt cur (r :: rest) =
      if rowLabel r = "" ∨ lowerStr (rowLabel r) = "total" ∨ lowerStr (rowLabel r) = "grand total" then
        scanRows kt ps my pt cur rest
      else if rowLabel r ∈ ps then
        scanRows kt ps my pt (some (rowLabel r)) rest
      else if rowLabel r ∈ kt then
        match cur with
        | some p =>
          if r.2 ≠ Cell.missing then
            ⟨my, pt, p, rowLabel r, r.2⟩ :: scanRows kt ps my pt cur rest
          else
            scanRows kt ps my pt cur rest
        | none => scanRows kt ps my pt cur rest
      else
        scanRows kt ps my pt cur rest := by
  cases cur <;> rfl

/-- Everything the scan guarantees about an emitted record: it carries the
scan's source and portal labels, a known-task label read off one of the
scanned rows together with that row's present value cell, and a person that
is either in the person list or was already the cursor when the scan
started. -/
lemma scanRows_mem (kt ps : List String) (my pt : String) :
    ∀ (rows : List (Cell × Cell)) (cur : Option String) (rec : Record),
      rec ∈ scanRows kt ps my pt cur rows →
      rec.month_year = my ∧ rec.portal = pt ∧ rec.task ∈ kt ∧ rec.value ≠ Cell.missing ∧
      (rec.person ∈ ps ∨ cur = some rec.person) ∧
      ∃ r ∈ rows, rec.task = rowLabel r ∧ rec.value = r.2 := by
  intro rows
  induction rows with
  | nil =>
    intro cur rec h
    simp [scanRows] at h
  | cons r rest ih =>
    intro cur rec h
    rw [scanRows_cons] at h
    by_cases hskip : rowLabel r = "" ∨ lowerStr (rowLabel r) = "total" ∨ lowerStr (rowLabel r) = "grand total"
    · rw [if_pos hskip] at h
      obtain ⟨h1, h2, h3, h4, h5, rr, hrr, hrest⟩ := ih cur rec h
      exact ⟨h1, h2, h3, h4, h5, rr, List.mem_cons_of_mem _ hrr, hrest⟩
    · rw [if_neg hskip] at h
      by_cases hp : rowLabel r ∈ ps
      · rw [if_pos hp] at h
        obtain ⟨h1, h2, h3, h4, h5, rr, hrr, hrest⟩ := ih _ rec h
        refine ⟨h1, h2, h3, h4, ?_, rr, List.mem_cons_of_mem _ hrr, hrest⟩
        rcases h5 with h5 | h5
        · exact Or.inl h5
        · exact Or.inl (by rwa [← Option.some_inj.mp h5])
      · rw [if_neg hp] at h
        by_cases hk : rowLabel r ∈ kt
        · rw [if_pos hk] at h
          cases cur with
          | none =>
            dsimp only at h
            obtain ⟨h1, h2, h3, h4, h5, rr, hrr, hrest⟩ := ih none rec h
            exact ⟨h1, h2, h3, h4, h5, rr, List.mem_cons_of_mem _ hrr, hrest⟩
          | some p =>
            dsimp only at h
            by_cases hv : r.2 = Cell.missing
            · rw [if_neg (by simp [hv])] at h
              obtain ⟨h1, h2, h3, h4, h5, rr, hrr, hrest⟩ := ih (some p) rec h
              exact ⟨h1, h2, h3, h4, h5, rr, List.mem_cons_of_mem _ hrr, hrest⟩
            · rw [if_pos hv] at h
              rcases List.mem_cons.mp h with h | h
              · subst h
                exact ⟨rfl, rfl, hk, hv, Or.inr rfl, r, List.mem_cons_self r rest, rfl, rfl⟩
              · obtain ⟨h1, h2, h3, h4, h5, rr, hrr, hrest⟩ := ih (some p) rec h
                exact ⟨h1, h2, h3, h4, h5, rr, List.mem_cons_of_mem _ hrr, hrest⟩
        · rw [if_neg hk] at h
          obtain ⟨h1, h2, h3, h4, h5, rr, hrr, hrest⟩ := ih cur rec h
          exact ⟨h1, h2, h3, h4, h5, rr, List.mem_cons_of_mem _ hrr, hrest⟩

/-- A scan that starts with a null cursor over rows none of which carries a
person-list label emits nothing. -/
lemma scanRows_nil_of_no_person (kt ps : List String) (my pt : String) :
    ∀ rows : List (Cell × Cell), (∀ r ∈ rows, rowLabel r ∉ ps) →
      scanRows kt ps my pt none rows = [] := by
  intro rows
  induction rows with
  | nil => intro _; rfl
  | cons r rest ih =>
    intro hno
    rw [scanRows_cons]
    by_cases hskip : rowLabel r = "" ∨ lowerStr (rowLabel r) = "total" ∨ lowerStr (rowLabel r) = "grand total"
    · rw [if_pos hskip]
      exact ih fun x hx => hno x (List.mem_cons_of_mem _ hx)
    · rw [if_neg hskip]
      rw [if_neg (hno r (List.mem_cons_self r rest))]
      by_cases hk : rowLabel r ∈ kt
      · rw [if_pos hk]
        exact ih fun x hx => hno x (List.mem_cons_of_mem _ hx)
      · rw [if_neg hk]
        exact ih fun x hx => hno x (List.mem_cons_of_mem _ hx)

/-- A row whose label the scan finds in the person list only moves the
cursor: the scan's output is the output on the remaining rows. -/
lemma scanRows_person_step (kt ps : List String) (my pt : String)
    (cur : Option String) (r : Cell × Cell) (rest : List (Cell × Cell))
    (h1 : rowLabel r ≠ "") (h2 : lowerStr (rowLabel r) ≠ "total")
    (h3 : lowerStr (rowLabel r) ≠ "grand total") (h4 : rowLabel r ∈ ps) :
    scanRows kt ps my pt cur (r :: rest) = scanRows kt ps my pt (some (rowLabel r)) rest := by
  rw [scanRows_cons]
  rw [if_neg (by simp [h1, h2, h3]), if_pos h4]

/-- What holds of every record of the extraction pass: its person is in the
frozen person list, its task is a known task, and its value cell is a present
cell of one of the run's rows. -/
lemma mem_extract_all {srcs : List Source} {rec : Record} (h : rec ∈ extract_all srcs) :
    rec.person ∈ all_persons_list srcs ∧ rec.task ∈ known_tasks ∧ rec.value ≠ Cell.missing ∧
    ∃ s ∈ srcs, ∃ sec ∈ s.sections, ∃ r ∈ sec.2, rec.task = rowLabel r ∧ rec.value = r.2 := by
  rw [extract_all, List.mem_flatten] at h
  obtain ⟨L, hL, hrec⟩ := h
  rw [List.mem_map] at hL
  obtain ⟨s, hs, rfl⟩ := hL
  rw [source_records, List.mem_flatten] at hrec
  obtain ⟨M, hM, hrec⟩ := hrec
  rw [List.mem_map] at hM
  obtain ⟨sec, hsec, rfl⟩ := hM
  rw [portal_records] at hrec
  obtain ⟨_, _, h3, h4, h5, rr, hrr, hrest⟩ := scanRows_mem _ _ _ _ _ _ _ hrec
  refine ⟨?_, h3, h4, s, hs, sec, hsec, rr, ?_, hrest⟩
  · rcases h5 with h5 | h5
    · exact h5
    · exact absurd h5 (by simp)
  · exact List.mem_filter.mp hrr |>.1

/-- Every string of the closed task vocabulary classifies as a known task
under the spec's ordered rules. -/
lemma known_tasks_classify : ∀ t ∈ known_tasks, classifySpec known_tasks t = CellClass.knownTask := by
  decide

/-- The running maximum of idxmax is an element of the scanned list and its
value bounds every scanned value. -/
lemma idxmax_aux_spec : ∀ (xs : List (String × Int)) (best : String × Int),
    idxmax_aux best xs ∈ best :: xs ∧ ∀ y ∈ best :: xs, y.2 ≤ (idxmax_aux best xs).2 := by
  intro xs
  induction xs with
  | nil =>
    intro best
    refine ⟨List.mem_cons_self _ _, ?_⟩
    intro y hy
    rcases List.mem_cons.mp hy with h | h
    · subst h; exact le_refl _
    · simp at h
  | cons x xs ih =>
    intro best
    rw [idxmax_aux]
    by_cases hc : best.2 < x.2
    · rw [if_pos hc]
      obtain ⟨hmem, hle⟩ := ih x
      constructor
      · rcases List.mem_cons.mp hmem with h | h
        · rw [h]
          exact List.mem_cons_of_mem _ (List.mem_cons_self _ _)
        · exact List.mem_cons_of_mem _ (List.mem_cons_of_mem _ h)
      · intro y hy
        rcases List.mem_cons.mp hy with h | h
        · rw [h]
          exact le_trans (le_of_lt hc) (hle x (List.mem_cons_self _ _))
        · exact hle y h
    · rw [if_neg hc]
      obtain ⟨hmem, hle⟩ := ih best
      constructor
      · rcases List.mem_cons.mp hmem with h | h
        · rw [h]
          exact List.mem_cons_self _ _
        · exact List.mem_cons_of_mem _ (List.mem_cons_of_mem _ h)
      · intro y hy
        rcases List.mem_cons.mp hy with h | h
        · rw [h]
          exact hle best (List.mem_cons_self _ _)
        · rcases List.mem_cons.mp h with h2 | h2
          · rw [h2]
            exact le_trans (not_lt.mp hc) (hle best (List.mem_cons_self _ _))
          · exact hle y (List.mem_cons_of_mem _ h2)

/-- Membership in the sorted per-person totals list. -/
lemma mem_person_totals (tbl : List FinalRecord) (p : String) (t : Int) :
    (p, t) ∈ person_totals tbl ↔ p ∈ persons_of tbl ∧ t = total_for tbl p := by
  rw [person_totals, List.mem_map]
  constructor
  · rintro ⟨q, hq, heq⟩
    have h1 : q = p := congrArg Prod.fst heq
    have h2 : total_for tbl q = t := congrArg Prod.snd heq
    subst h1
    exact ⟨(List.perm_insertionSort strLeRel (persons_of tbl)).mem_iff.mp hq, h2.symm⟩
  · rintro ⟨hp, rfl⟩
    exact ⟨p, (List.perm_insertionSort strLeRel (persons_of tbl)).mem_iff.mpr hp, rfl⟩

lemma persons_of_ne_nil {tbl : List FinalRecord} (h : tbl ≠ []) : persons_of tbl ≠ [] := by
  rcases tbl with _ | ⟨r, rest⟩
  · exact absurd rfl h
  · have hmem : r.person ∈ persons_of (r :: rest) := by
      rw [persons_of, List.mem_dedup]
      exact List.mem_map_of_mem _ (List.mem_cons_self _ _)
    exact List.ne_nil_of_mem hmem

lemma person_totals_ne_nil {tbl : List FinalRecord} (h : tbl ≠ []) : person_totals tbl ≠ [] := by
  rw [person_totals]
  intro hc
  have hsorted := List.map_eq_nil_iff.mp hc
  have hperm := List.perm_insertionSort strLeRel (persons_of tbl)
  rw [hsorted] at hperm
  exact absurd hperm.symm.eq_nil (persons_of_ne_nil h)

lemma total_for_append (l1 l2 : List FinalRecord) (p : String) :
    total_for (l1 ++ l2) p = total_for l1 p + total_for l2 p := by
  simp [total_for, List.filter_append]

lemma total_for_flatten (ll : List (List FinalRecord)) (p : String) :
    total_for ll.flatten p = (ll.map (fun l => total_for l p)).sum := by
  induction ll with
  | nil => simp [total_for]
  | cons l ls ih => simp [List.flatten_cons, total_for_append, ih]

/-- The final table is the concatenation of the per-source final tables, all
extracted against the run's frozen person list. -/
lemma combined_df_eq_flatten (srcs : List Source) :
    combined_df srcs = (srcs.map (fun s => source_final srcs s)).flatten := by
  rw [combined_df, extract_all, List.map_flatten, List.map_map]
  rfl

lemma sum_map_flatten {α : Type} (ll : List (List α)) (f : α → Int) :
    (ll.flatten.map f).sum = (ll.map (fun g => (g.map f).sum)).sum := by
  induction ll with
  | nil => rfl
  | cons g gs ih =>
    simp only [List.flatten_cons, List.map_append, List.sum_append, List.map_cons, List.sum_cons]
    rw [ih]

/-- C1: a completion triple is emitted only when a known-task row is scanned
while the current-person cursor is non-null, the cursor starting null at each
section scan: a scan whose rows carry no person-vocabulary label yields zero
triples, and a row whose label is in the frozen person vocabulary only moves
the cursor, emitting no triple itself. -/
theorem c1_triple_requires_prior_person :
    (∀ (kt ps : List String) (my pt : String) (rows : List (Cell × Cell)),
      (∀ r ∈ rows, rowLabel r ∉ ps) → scanRows kt ps my pt none rows = []) ∧
    (∀ (srcs : List Source) (my pt : String) (cur : Option String)
       (r : Cell × Cell) (rest : List (Cell × Cell)),
      rowLabel r ∈ all_persons_list srcs →
      scanRows known_tasks (all_persons_list srcs) my pt cur (r :: rest) =
        scanRows known_tasks (all_persons_list srcs) my pt (some (rowLabel r)) rest) := by
  constructor
  · exact fun kt ps my pt rows h => scanRows_nil_of_no_person kt ps my pt rows h
  · intro srcs my pt cur r rest hmem
    have hpl := ((mem_all_persons_list srcs (rowLabel r)).mp hmem).1
    obtain ⟨h1, _, h3, h4⟩ := isPersonLike_facts hpl
    exact scanRows_person_step _ _ _ _ _ _ _ h1 h3 h4 hmem

/-- Witness for C1 at concrete inputs: a lone task row with no prior person
row yields zero triples, and a person row only moves the cursor. -/
theorem c1_triple_requires_prior_person_witness :
    scanRows known_tasks ["Alice"] "March 2024" "AMS PORTAL" none
      [(Cell.str "Quality", Cell.num 5)] = [] ∧
    scanRows known_tasks (all_persons_list c1src) "March 2024" "AMS PORTAL" none
      [(Cell.str "Alice", Cell.missing)] =
      scanRows known_tasks (all_persons_list c1src) "March 2024" "AMS PORTAL"
        (some (rowLabel (Cell.str "Alice", Cell.missing))) [] :=
  ⟨c1_triple_requires_prior_person.1 known_tasks ["Alice"] "March 2024" "AMS PORTAL"
      [(Cell.str "Quality", Cell.num 5)] (by decide),
   c1_triple_requires_prior_person.2 c1src "March 2024" "AMS PORTAL" none
      (Cell.str "Alice", Cell.missing) [] (by decide)⟩

/-- C2: the ordered classifier rules call a trimmed value a person candidate
exactly when the code's discovery filter accepts it, and the discovery pass
puts a value into the person vocabulary if and only if the value classifies
as a person candidate and occurs as a trimmed label on a surviving row of the
run. -/
theorem c2_cell_classifier :
    (∀ (kt : List String) (v : String),
      classifySpec kt v = CellClass.personCandidate ↔ isPersonLike kt v = true) ∧
    (∀ (srcs : List Source) (v : String),
      v ∈ all_persons_list srcs ↔
        classifySpec known_tasks v = CellClass.personCandidate ∧ occursLabel v srcs) := by
  refine ⟨classifySpec_person_iff, ?_⟩
  intro srcs v
  rw [mem_all_persons_list, classifySpec_person_iff]

/-- Witness for C2: the label "Alice" of the concrete run classifies as a
person candidate and is indeed in the discovered vocabulary. -/
theorem c2_cell_classifier_witness : "Alice" ∈ all_persons_list c2src :=
  (c2_cell_classifier.2 c2src "Alice").mpr
    ⟨by decide,
     ⟨"March 2024", [("AMS PORTAL", [(Cell.str "Alice", Cell.num 3)])]⟩, by decide,
     ("AMS PORTAL", [(Cell.str "Alice", Cell.num 3)]), by decide,
     (Cell.str "Alice", Cell.num 3), by decide, by decide⟩

/-- C3 counterexample: a negative numeric completion cell survives coercion
unchanged, so the final table carries a Completion strictly below 0. -/
theorem c3_counterexample_negative_completion :
    ∃ rec ∈ combined_df c3src, rec.completion < 0 := by decide

/-- C3 amended: every Completion of the final table is an integer produced by
the numeric coercion (never null, never a string); a non-coercible cell
coerces to exactly 0 and the record count is preserved (records are kept, not
dropped); and Completion is nonnegative provided every value cell of the run
coerces to a nonnegative number — the unconditional bound fails because a
negative numeric input survives, as the counterexample shows. -/
theorem c3_completion_numeric_amended (srcs : List Source)
    (h : ∀ s ∈ srcs, ∀ sec ∈ s.sections, ∀ r ∈ sec.2, 0 ≤ fill0 r.2) :
    (∀ rec ∈ combined_df srcs, 0 ≤ rec.completion) ∧
    (∀ c : Cell, to_numeric_coerce c = none → fill0 c = 0) ∧
    (combined_df srcs).length = (extract_all srcs).length := by
  refine ⟨?_, ?_, List.length_map _ _⟩
  · intro rec hrec
    rw [combined_df, List.mem_map] at hrec
    obtain ⟨raw, hraw, rfl⟩ := hrec
    obtain ⟨_, _, _, s, hs, sec, hsec, rr, hrr, _, hval⟩ := mem_extract_all hraw
    show 0 ≤ fill0 raw.value
    rw [hval]
    exact h s hs sec hsec rr hrr
  · intro c hc
    rw [fill0, hc]
    rfl

/-- Witness for C3 amended at a concrete run whose cells all coerce to
nonnegative numbers. -/
theorem c3_completion_numeric_amended_witness :
    (∀ s ∈ c3wsrc, ∀ sec ∈ s.sections, ∀ r ∈ sec.2, 0 ≤ fill0 r.2) ∧
    ∀ rec ∈ combined_df c3wsrc, 0 ≤ rec.completion :=
  ⟨by decide, (c3_completion_numeric_amended c3wsrc (by decide)).1⟩

/-- C4 counterexample: with the cursor set, a known-task row whose value cell
is a present but non-numeric string still emits a triple, so emission does
not require numeric-coercibility as the claim states. -/
theorem c4_counterexample_noncoercible_value :
    ∃ rec ∈ extract_all c4src, to_numeric_coerce rec.value = none := by decide

/-- C4 amended: a triple is emitted for a row exactly when its label is a
known task, the cursor is non-null and the value cell is present (pd.notna),
with no numeric-coercibility requirement: every emitted record has a
known-task label and a present value cell, a scan over rows whose value cells
are all missing emits zero triples, and the concrete run emits a triple whose
present value cell is not numeric-coercible. -/
theorem c4_emit_guard_amended :
    (∀ (kt ps : List String) (my pt : String) (cur : Option String)
       (rows : List (Cell × Cell)), ∀ rec ∈ scanRows kt ps my pt cur rows,
       rec.task ∈ kt ∧ rec.value ≠ Cell.missing) ∧
    (∀ (kt ps : List String) (my pt : String) (cur : Option String)
       (rows : List (Cell × Cell)), (∀ r ∈ rows, r.2 = Cell.missing) →
       scanRows kt ps my pt cur rows = []) ∧
    extract_all c4src =
      [⟨"March 2024", "AMS PORTAL", "Alice", "Quality", Cell.str "abc"⟩] := by
  refine ⟨?_, ?_, by decide⟩
  · intro kt ps my pt cur rows rec h
    obtain ⟨_, _, h3, h4, _, _⟩ := scanRows_mem kt ps my pt rows cur rec h
    exact ⟨h3, h4⟩
  · intro kt ps my pt cur rows
    induction rows generalizing cur with
    | nil => intro _; rfl
    | cons r rest ih =>
      intro hmiss
      have hr2 : r.2 = Cell.missing := hmiss r (List.mem_cons_self r rest)
      rw [scanRows_cons]
      by_cases h1 : rowLabel r = "" ∨ lowerStr (rowLabel r) = "total" ∨ lowerStr (rowLabel r) = "grand total"
      · rw [if_pos h1]
        exact ih _ fun x hx => hmiss x (List.mem_cons_of_mem _ hx)
      · rw [if_neg h1]
        by_cases h2 : rowLabel r ∈ ps
        · rw [if_pos h2]
          exact ih _ fun x hx => hmiss x (List.mem_cons_of_mem _ hx)
        · rw [if_neg h2]
          by_cases h3 : rowLabel r ∈ kt
          · rw [if_pos h3]
            cases cur with
            | none =>
              dsimp only
              exact ih _ fun x hx => hmiss x (List.mem_cons_of_mem _ hx)
            | some p =>
              dsimp only
              rw [if_neg (by simp [hr2])]
              exact ih _ fun x hx => hmiss x (List.mem_cons_of_mem _ hx)
          · rw [if_neg h3]
            exact ih _ fun x hx => hmiss x (List.mem_cons_of_mem _ hx)

/-- Witness for C4 amended: scenario C of the spec, a known-task row whose
value cell is missing, with the cursor set, emits zero triples. -/
theorem c4_emit_guard_amended_witness :
    scanRows known_tasks ["Alice"] "March 2024" "AMS PORTAL" (some "Alice")
      [(Cell.str "Quality", Cell.missing)] = [] :=
  c4_emit_guard_amended.2.1 known_tasks ["Alice"] "March 2024" "AMS PORTAL" (some "Alice")
    [(Cell.str "Quality", Cell.missing)] (by decide)

/-- C5: no triple of a run carries a structurally noisy string in its task or
person field, whatever the cursor did: tasks come from the known-task list,
which classifies as known tasks, and persons come from the frozen vocabulary,
which classifies as person candidates. -/
theorem c5_noise_never_emitted (srcs : List Source) (v : String)
    (hv : classifySpec known_tasks v = CellClass.structuralNoise) :
    ∀ rec ∈ extract_all srcs, rec.task ≠ v ∧ rec.person ≠ v := by
  intro rec hrec
  obtain ⟨hperson, htask, _, _⟩ := mem_extract_all hrec
  constructor
  · intro hc
    have ht := known_tasks_classify rec.task htask
    rw [hc] at ht
    rw [hv] at ht
    exact absurd ht (by decide)
  · intro hc
    have hip := ((mem_all_persons_list srcs rec.person).mp hperson).1
    have hpc := (classifySpec_person_iff known_tasks rec.person).mpr hip
    rw [hc] at hpc
    rw [hv] at hpc
    exact absurd hpc (by decide)

/-- Witness for C5: "Grand Total" classifies as noise and the concrete run's
emitted record avoids it in both fields. -/
theorem c5_noise_never_emitted_witness :
    classifySpec known_tasks "Grand Total" = CellClass.structuralNoise ∧
    (⟨"March 2024", "AMS PORTAL", "Alice", "Quality", Cell.num 5⟩ : Record).task ≠ "Grand Total" :=
  ⟨by decide,
   (c5_noise_never_emitted c5src "Grand Total" (by decide)
     ⟨"March 2024", "AMS PORTAL", "Alice", "Quality", Cell.num 5⟩ (by decide)).1⟩

/-- C6: every extracted triple's person field is a member of the frozen person
vocabulary computed by the discovery pass for that run. -/
theorem c6_person_in_frozen_vocabulary (srcs : List Source) :
    ∀ rec ∈ extract_all srcs, rec.person ∈ all_persons_list srcs := by
  intro rec hrec
  exact (mem_extract_all hrec).1

/-- Witness for C6 on a concrete run. -/
theorem c6_person_in_frozen_vocabulary_witness :
    (⟨"May 2024", "EMEA PORTAL", "Carol", "Review", Cell.num 7⟩ : Record).person ∈
      all_persons_list c6src :=
  c6_person_in_frozen_vocabulary c6src
    ⟨"May 2024", "EMEA PORTAL", "Carol", "Review", Cell.num 7⟩ (by decide)

/-- C7: top-performer lookup returns the sentinel "N/A" on an empty table
rather than raising, and on a non-empty table it returns a person of the
table whose summed completion is maximal among all its persons. -/
theorem c7_top_performer_sentinel :
    top_performer [] = "N/A" ∧
    ∀ tbl : List FinalRecord, tbl ≠ [] →
      top_performer tbl ∈ persons_of tbl ∧
      ∀ p ∈ persons_of tbl, total_for tbl p ≤ total_for tbl (top_performer tbl) := by
  constructor
  · rfl
  · intro tbl htbl
    have hne := person_totals_ne_nil htbl
    rcases hpt : person_totals tbl with _ | ⟨x, xs⟩
    · exact absurd hpt hne
    · have htop : top_performer tbl = (idxmax_aux x xs).1 := by
        rw [top_performer, if_neg (by simp [htbl]), hpt]
      obtain ⟨hmem, hle⟩ := idxmax_aux_spec xs x
      rw [← hpt] at hmem
      rcases hq : idxmax_aux x xs with ⟨q, t⟩
      rw [hq] at hmem
      have hch := (mem_person_totals tbl q t).mp hmem
      constructor
      · rw [htop, hq]
        exact hch.1
      · intro p hp
        have hpair : (p, total_for tbl p) ∈ person_totals tbl :=
          (mem_person_totals tbl p (total_for tbl p)).mpr ⟨hp, rfl⟩
        rw [hpt] at hpair
        have hb := hle (p, total_for tbl p) hpair
        rw [hq] at hb
        rw [htop, hq]
        exact le_trans hb (le_of_eq hch.2)

/-- Witness for C7: the non-empty branch applied to a concrete table. -/
theorem c7_top_performer_sentinel_witness :
    c7tbl ≠ [] ∧ top_performer c7tbl ∈ persons_of c7tbl :=
  ⟨by decide, (c7_top_performer_sentinel.2 c7tbl (by decide)).1⟩

/-- C8: the aggregated table is reordered by the key parsed from each source
label as a long month name plus 4-digit year: the sorted table is a
permutation of the aggregated table, it is sorted under the Month_Order
comparison, and whenever a record whose label does not parse precedes another
record, that later record does not parse either — unparseable labels sort
after all parseable ones. -/
theorem c8_chronological_sort (srcs : List Source) :
    (combined_sorted srcs).Perm (combined_df srcs) ∧
    List.Sorted month_order_le (combined_sorted srcs) ∧
    ∀ (l1 : List FinalRecord) (a : FinalRecord) (l2 : List FinalRecord) (b : FinalRecord),
      combined_sorted srcs = l1 ++ a :: l2 → b ∈ l2 →
      parse_month_year a.month_year = none → parse_month_year b.month_year = none := by
  refine ⟨List.perm_insertionSort _ _, List.sorted_insertionSort _ _, ?_⟩
  intro l1 a l2 b heq hb ha
  have hs : List.Sorted month_order_le (l1 ++ a :: l2) := by
    rw [← heq]
    exact List.sorted_insertionSort _ _
  have hs2 : List.Sorted month_order_le (a :: l2) :=
    hs.sublist (List.sublist_append_right l1 (a :: l2))
  have hrel : month_order_le a b := (List.sorted_cons.mp hs2).1 b hb
  have hka : month_order_key a = ⊤ := by simp [month_order_key, ha]
  rw [month_order_le, hka] at hrel
  have hkb : month_order_key b = ⊤ := top_le_iff.mp hrel
  rcases hp : parse_month_year b.month_year with _ | k
  · rfl
  · simp [month_order_key, hp] at hkb

/-- Witness for C8: a run whose only source label does not parse, with the
sorted table computed concretely. -/
theorem c8_chronological_sort_witness :
    combined_sorted c8src = [c8recA, c8recB] ∧
    parse_month_year c8recA.month_year = none ∧
    parse_month_year c8recB.month_year = none :=
  ⟨by decide, by decide,
   (c8_chronological_sort c8src).2.2 [] c8recA [c8recB] c8recB (by decide)
     (by decide) (by decide)⟩

/-- C9: for any partition of the run's sources into groups, the per-person
completion sum over the full concatenated table equals the sum over the
groups of the per-group per-person sums: concatenating the per-source record
sequences and then grouping-and-summing loses no record and counts none
twice. -/
theorem c9_partition_sum (srcs : List Source) (groups : List (List Source))
    (h : groups.flatten = srcs) (p : String) :
    total_for (combined_df srcs) p =
      (groups.map (fun g => (g.map (fun s => total_for (source_final srcs s) p)).sum)).sum := by
  subst h
  rw [combined_df_eq_flatten, total_for_flatten, List.map_map, sum_map_flatten]
  rfl

/-- Witness for C9: a two-source run split into singleton groups. -/
theorem c9_partition_sum_witness :
    c9groups.flatten = c9srcs ∧
    total_for (combined_df c9srcs) "Alice" =
      (c9groups.map (fun g =>
        (g.map (fun s => total_for (source_final c9srcs s) "Alice")).sum)).sum :=
  ⟨by decide, c9_partition_sum c9srcs c9groups (by decide) "Alice"⟩

/-- C10: a row with a missing label but a present value cell survives the
dropna projection; its label reads as the literal string "nan", which the
discovery filter accepts and the known-task check does not claim, so "nan"
joins the person vocabulary whenever such a row occurs in a run; and on the
concrete run the cursor is set to "nan" and the following task row attributes
its triple to the pseudo-person "nan". -/
theorem c10_nan_pseudo_person :
    (∀ (v : Cell) (rows : List (Cell × Cell)), v ≠ Cell.missing →
      (Cell.missing, v) ∈ rows → (Cell.missing, v) ∈ dropna_all rows) ∧
    isPersonLike known_tasks "nan" = true ∧
    (∀ (srcs : List Source) (s : Source) (sec : String × List (Cell × Cell)) (v : Cell),
      s ∈ srcs → sec ∈ s.sections → (Cell.missing, v) ∈ sec.2 → v ≠ Cell.missing →
      "nan" ∈ all_persons_list srcs) ∧
    (∃ rec ∈ extract_all c10src, rec.person = "nan") := by
  refine ⟨?_, by decide, ?_, by decide⟩
  · intro v rows hv hmem
    rw [dropna_all, List.mem_filter]
    exact ⟨hmem, by simp [hv]⟩
  · intro srcs s sec v hs hsec hmem hv
    rw [mem_all_persons_list]
    refine ⟨by decide, s, hs, sec, hsec, (Cell.missing, v), ?_, rfl⟩
    rw [dropna_all, List.mem_filter]
    exact ⟨hmem, by simp [hv]⟩

/-- Witness for C10 on the concrete run: "nan" really is discovered as a
person. -/
theorem c10_nan_pseudo_person_witness : "nan" ∈ all_persons_list c10src :=
  c10_nan_pseudo_person.2.2.1 c10src
    ⟨"March 2024", [("AMS PORTAL", [(Cell.missing, Cell.num 1), (Cell.str "Quality", Cell.num 4)])]⟩
    ("AMS PORTAL", [(Cell.missing, Cell.num 1), (Cell.str "Quality", Cell.num 4)])
    (Cell.num 1) (by decide) (by decide) (by decide) (by decide)

end StreamlitApp
